import Mathlib

/-!
Shallow embedding of the Multi-Agent-Orchestration backend:
`src/backend/app/tools.py` and `src/backend/app/agent.py`.

Python regex character classes and case conversion are modelled over their
ASCII behaviour (`\d` as the decimal digits 0-9, `[a-zA-Z]` as the ASCII
letters, `\s` as the six ASCII whitespace characters); the external calls
(the Groq chat backend, the Tavily provider, the tool executor, the
GROQ_API_KEY environment check and the wall clock read by `datetime.now`)
are parameters of the embedding.
-/

namespace Orchestration

/-! ## Character classes used by `clean_snippet` (tools.py, lines 12-35) -/

/-- The characters removed by step 1 of `clean_snippet`:
the regex class `[\n\r\t\*\_\|#]`. -/
def junkChar (c : Char) : Bool :=
  c = '\n' || c = '\r' || c = '\t' || c = '*' || c = '_' || c = '|' || c = '#'

/-- The regex class `[a-zA-Z]`. -/
def asciiLetter (c : Char) : Bool :=
  ('a' ≤ c && c ≤ 'z') || ('A' ≤ c && c ≤ 'Z')

/-- The regex class `\d` (ASCII model). -/
def asciiDigit (c : Char) : Bool :=
  '0' ≤ c && c ≤ '9'

/-- The regex class `\s` (ASCII model): space, tab, newline, carriage
return, vertical tab, form feed. -/
def pySpace (c : Char) : Bool :=
  c = ' ' || c = '\t' || c = '\n' || c = '\r' || c = '\x0b' || c = '\x0c'

/-! ## `clean_snippet` (tools.py, lines 12-35)

Each of the five `re.sub` passes is embedded as a list transformer.
The two insertion regexes `(\d)([a-zA-Z])` and `([a-zA-Z])(\d)` can never
have overlapping matches (digits and letters are disjoint), so the
left-to-right non-overlapping `re.sub` scan inserts a space at every
matching adjacency; `insertPair` does exactly that. -/

/-- Step 1: `re.sub(r'[\n\r\t\*\_\|#]', ' ', text)`. -/
def step1 (l : List Char) : List Char :=
  l.map fun c => if junkChar c then ' ' else c

/-- A digit immediately followed by a letter (the match of step 2). -/
def dlPair (a b : Char) : Bool := asciiDigit a && asciiLetter b

/-- A letter immediately followed by a digit (the match of step 3). -/
def ldPair (a b : Char) : Bool := asciiLetter a && asciiDigit b

/-- Insert one space between every adjacent pair satisfying `Q`.
With `Q = dlPair` this is step 2, `re.sub(r'(\d)([a-zA-Z])', r'\1 \2', _)`;
with `Q = ldPair` it is step 3, `re.sub(r'([a-zA-Z])(\d)', r'\1 \2', _)`. -/
def insertPair (Q : Char → Char → Bool) : List Char → List Char
  | [] => []
  | [c] => [c]
  | a :: b :: r =>
    if Q a b then a :: ' ' :: insertPair Q (b :: r)
    else a :: insertPair Q (b :: r)

/-- Scan for the first `]`, failing on a newline first (regex `.` does not
cross `\n`); returns the remainder after the `]`. -/
def findClose : List Char → Option (List Char)
  | [] => none
  | c :: r => if c = ']' then some r else if c = '\n' then none else findClose r

/-- Step 4: `re.sub(r'\[.*?\]', '', text)`, the leftmost-shortest scan.
The fuel only bounds the recursion; every call consumes at least one
character, so `fuel = l.length` (as used by `remBr`) never runs out. -/
def remBrAux : Nat → List Char → List Char
  | _, [] => []
  | 0, l => l
  | fuel + 1, c :: r =>
    if c = '[' then
      match findClose r with
      | some r2 => remBrAux fuel r2
      | none => c :: remBrAux fuel r
    else c :: remBrAux fuel r

/-- Step 4 of `clean_snippet`. -/
def remBr (l : List Char) : List Char := remBrAux l.length l

/-- Step 5a: `re.sub(r'\s+', ' ', text)` - every maximal whitespace run
becomes a single space. -/
def collapseWs : List Char → List Char
  | [] => []
  | [c] => if pySpace c then [' '] else [c]
  | a :: b :: r =>
    if pySpace a && pySpace b then collapseWs (b :: r)
    else (if pySpace a then ' ' else a) :: collapseWs (b :: r)

/-- Drop trailing whitespace (the right half of `.strip()`). -/
def rstrip (l : List Char) : List Char :=
  (l.reverse.dropWhile pySpace).reverse

/-- Step 5b: `.strip()`. -/
def stripEnds (l : List Char) : List Char :=
  rstrip (l.dropWhile pySpace)

/-- The full five-step pipeline of `clean_snippet` on character lists. -/
def cleanedList (l : List Char) : List Char :=
  stripEnds (collapseWs (remBr (insertPair ldPair (insertPair dlPair (step1 l)))))

/-- `clean_snippet` (tools.py, lines 12-35) on strings. -/
def clean_snippet (s : String) : String :=
  ⟨cleanedList s.toList⟩

/-- The `isinstance(text, str)` guard of `clean_snippet`: a missing or
non-string payload is treated as the empty string. -/
def clean_snippet_opt : Option String → String
  | some s => clean_snippet s
  | none => ""

/-! ## `tavily_search` (tools.py, lines 38-62) -/

/-- A raw provider result dictionary; `url` and `content` model
`result.get("url")` and `result.get("content")` (absent keys are `none`). -/
structure RawResult where
  url : Option String
  content : Option String
deriving DecidableEq

/-- A record in the list returned by `tavily_search`. -/
inductive SearchRecord
  | entry (url : Option String) (content : String)
  | error (msg : String)
deriving DecidableEq

/-- Whether the record carries the `error` field. -/
def SearchRecord.isError : SearchRecord → Bool
  | .error _ => true
  | _ => false

/-- What the one provider invocation inside the `try` block did: returned
a result list, or raised an exception with a message. -/
inductive ProviderOutcome
  | ok (results : List RawResult)
  | exn (msg : String)
deriving DecidableEq

/-- `tavily_search` (tools.py, lines 38-62) as a function of the provider
outcome: exceptions and empty result sets become a single error record,
otherwise each snippet is cleaned. -/
def tavily_search (outcome : ProviderOutcome) : List SearchRecord :=
  match outcome with
  | .exn e => [.error ("An error occurred during the search: " ++ e)]
  | .ok [] =>
    [.error "The web search returned no results for that query. Please try rephrasing it."]
  | .ok results =>
    results.map fun r => .entry r.url (clean_snippet_opt r.content)

/-! ## Messages (the langchain message shapes used by agent.py) -/

/-- Python `str.lower()` (ASCII model, character-wise). -/
def strLower (s : String) : String := ⟨s.toList.map Char.toLower⟩

/-- Python `str.upper()` (ASCII model, character-wise). -/
def strUpper (s : String) : String := ⟨s.toList.map Char.toUpper⟩

/-- One tool-call request attached to an assistant message. -/
structure ToolCall where
  name : String
  args : String
deriving DecidableEq

/-- One element of a structured (list) content payload: a
`\x7b"type": "text", ...\x7d` part, a `\x7b"type": "image_url", ...\x7d`
part, or anything else (a non-dict part or a dict of another type). -/
inductive ContentPart
  | text (t : String)
  | imageUrl (url : String)
  | other
deriving DecidableEq

/-- A message content: a plain string, a structured list of parts, or
any other payload. -/
inductive MessageContent
  | str (s : String)
  | parts (ps : List ContentPart)
  | other
deriving DecidableEq

/-- A langchain message. Only assistant (`AIMessage`) messages carry the
`tool_calls` attribute, matching `hasattr(m, "tool_calls")`. -/
inductive Message
  | user (content : MessageContent)
  | assistant (content : MessageContent) (tool_calls : List ToolCall)
  | tool (content : MessageContent)
  | system (content : MessageContent)
deriving DecidableEq

/-- The `content` attribute of a message. -/
def contentOf : Message → MessageContent
  | .user c => c
  | .assistant c _ => c
  | .tool c => c
  | .system c => c

/-- The `tool_calls` list of an assistant message (empty otherwise). -/
def toolCallsOf : Message → List ToolCall
  | .assistant _ tcs => tcs
  | _ => []

/-- `hasattr(m, "tool_calls") and m.tool_calls` (agent.py, line 255). -/
def msg_has_tool_calls : Message → Bool
  | .assistant _ tcs => !tcs.isEmpty
  | _ => false

/-- `isinstance(m, ToolMessage)` (agent.py, line 259). -/
def isToolMsg : Message → Bool
  | .tool _ => true
  | _ => false

/-- `str(content)`: a plain string prints as itself; the Python repr of a
structured payload is immaterial to every claim and is modelled by a
simple injective rendering. -/
def contentToString : MessageContent → String
  | .str s => s
  | .parts ps =>
    String.intercalate ", " (ps.map fun p =>
      match p with
      | .text t => "text:" ++ t
      | .imageUrl u => "image_url:" ++ u
      | .other => "part")
  | .other => ""

/-! ## `persona_router_node` (agent.py, lines 111-144) -/

/-- One iteration of the part loop of `persona_router_node`: a text part
overwrites the query with its lower-cased text, an image part sets the
image flag. -/
def scanStep : String × Bool → ContentPart → String × Bool
  | (_, hi), .text t => (strLower t, hi)
  | (q, _), .imageUrl _ => (q, true)
  | (q, hi), .other => (q, hi)

/-- The `(query, has_image)` extraction of `persona_router_node`
(agent.py, lines 117-128). -/
def extractQueryImage : MessageContent → String × Bool
  | .str s => (strLower s, false)
  | .parts ps => ps.foldl scanStep ("", false)
  | .other => ("", false)

/-- Whether `pat` occurs as a substring (the Python `in` operator). -/
def listHasSub (pat : List Char) : List Char → Bool
  | [] => pat.isEmpty
  | c :: r => pat.isPrefixOf (c :: r) || listHasSub pat r

/-- `pat in s` on strings. -/
def strContains (s pat : String) : Bool := listHasSub pat.toList s.toList

/-- The fixed financial keyword list (agent.py, lines 130-134). -/
def financial_keywords : List String :=
  ["stock", "market", "finance", "news", "companies", "top 5", "top 10",
   "price", "bitcoin", "crypto", "investment", "rate", "usd", "inr",
   "business", "economic", "latest", "largest", "ranking"]

/-- `any(k in query for k in financial_keywords)`. -/
def matchesKeyword (query : String) : Bool :=
  financial_keywords.any fun k => strContains query k

/-- `persona_router_node` (agent.py, lines 111-144), as a function of
`state["messages"][-1]`. -/
def persona_router_node (lm : Message) : String :=
  let qi := extractQueryImage (contentOf lm)
  if qi.2 then "Vision Agent"
  else if matchesKeyword qi.1 then "Financial Analyst"
  else "Creative Writer"

/-! ## `model_router_node` (agent.py, lines 70-107) -/

/-- Whether a content part is an image part. -/
def partIsImage : ContentPart → Bool
  | .imageUrl _ => true
  | _ => false

/-- The image scan of `model_router_node` (agent.py, lines 78-82) on
`state["messages"][-1]`: some part of a list content is an image part. -/
def msgHasImage (m : Message) : Bool :=
  match contentOf m with
  | .parts ps => ps.any partIsImage
  | _ => false

/-- `model_router_node` (agent.py, lines 70-107), as a function of
`state["messages"][-1]` and `state["persona"]`; `Except.error` models the
`raise ValueError`. -/
def model_router_node (lm : Message) (persona : String) :
    Except String (String × String) :=
  if msgHasImage lm then .ok ("meta-llama/Llama-4-scout-17b-16e-instruct", "GROQ")
  else if persona = "Financial Analyst" then .ok ("llama-3.3-70b-versatile", "GROQ")
  else if persona = "Creative Writer" then .ok ("llama-3.1-8b-instant", "GROQ")
  else .error "Could not determine a suitable model for the request."

/-! ## `DEPRECATED_MODEL_MAP` and `make_llm` (agent.py, lines 40-59) -/

/-- The fallback map for deprecated models (agent.py, lines 40-44). -/
def DEPRECATED_MODEL_MAP : List (String × String) :=
  [("llama3-8b-8192", "llama-3.1-8b-instant"),
   ("llama3-70b-8192", "llama-3.1-70b-versatile"),
   ("llama-3.1-70b-versatile", "llama-3.3-70b-versatile")]

/-- `model_name in DEPRECATED_MODEL_MAP` / `DEPRECATED_MODEL_MAP[m]`. -/
def depLookup (m : String) : Option String := DEPRECATED_MODEL_MAP.lookup m

/-- The single rewrite applied by `make_llm` (agent.py, lines 50-52). -/
def rewriteOnce (m : String) : String := (depLookup m).getD m

/-- `n`-fold repetition of the deprecated-identifier rewrite, stopping at
an identifier that is not in the map. -/
def rewriteIter : Nat → String → String
  | 0, m => m
  | n + 1, m =>
    match depLookup m with
    | some m2 => rewriteIter n m2
    | none => m

/-- `make_llm` (agent.py, lines 47-59): rewrite, then the provider check,
then the `GROQ_API_KEY` check (the key presence is a parameter); `.ok m`
stands for a `ChatGroq` backend configured with model `m`. -/
def make_llm (model_name provider : String) (groq_key : Bool) :
    Except String String :=
  let m := rewriteOnce model_name
  if strUpper provider ≠ "GROQ" then
    .error ("Unknown model provider: " ++ provider ++ ". This app is configured for GROQ only.")
  else if !groq_key then
    .error "GROQ_API_KEY not found in .env. Cannot use Groq models."
  else .ok m

/-! ## The graph state and nodes (agent.py, lines 61-264)

The `AgentState` TypedDict keys `persona`, `selected_model_name` and
`selected_model_provider` are absent until a node writes them; absence is
modelled by `Option`. The chat backend, the tool executor, the
`GROQ_API_KEY` presence and the clock are parameters. -/

/-- The graph state (agent.py, lines 62-66). -/
structure AgentState where
  messages : List Message
  persona : Option String
  selected_model_name : Option String
  selected_model_provider : Option String
deriving DecidableEq

/-- The chat backend: given whether the search tool is bound
(`bind_tools`), the resolved model name, and the input message list, it
produces one response message. -/
def Backend := Bool → String → List Message → Message

/-- The `ToolNode`: executes the tool calls of the latest assistant
message and returns the resulting tool messages. -/
def ToolExec := List ToolCall → List Message

/-- `persona_router_node` as a graph step: reads `state["messages"][-1]`
(`none` models the `IndexError` on an empty list) and writes `persona`. -/
def persona_router_step (st : AgentState) : Option AgentState :=
  st.messages.getLast?.map fun lm =>
    { st with persona := some (persona_router_node lm) }

/-- `model_router_node` as a graph step: reads `state["messages"][-1]` and
`state["persona"]`; `none` models the `IndexError`/`KeyError`/`ValueError`
escapes. -/
def model_router_step (st : AgentState) : Option AgentState :=
  match st.messages.getLast?, st.persona with
  | some lm, some p =>
    match model_router_node lm p with
    | .ok (mn, mp) =>
      some { st with selected_model_name := some mn,
                     selected_model_provider := some mp }
    | .error _ => none
  | _, _ => none

/-- The Financial Analyst system prompt (agent.py, lines 168-238), with
the `datetime.now` reading passed in as `now_str`. -/
def financial_system_prompt (now_str : String) : String :=
  "You are a professional Data Analyst. You MUST use the tavily_search tool. "
  ++ "Your job is to provide factual, reliable, and beautifully formatted answers based *only* on the search results."
  ++ "\n\n"
  ++ "**CRITICAL RULES:**"
  ++ "\n"
  ++ "1.  **NO HALLUCINATION:** You MUST NOT invent data. You must extract prices, numbers, and company names *directly* from the search results. DO NOT invent links or data."
  ++ "\n"
  ++ "2.  **SOURCE QUALITY:** You MUST prioritize authoritative sources (e.g., 'Forbes', 'Wikipedia', 'CoinMarketCap', 'Coinbase') from the search URLs."
  ++ "\n"
  ++ "3.  **EXPLAIN CONFLICTS:** For volatile assets (like crypto/stocks), you must report the different prices you find and add a simple, one-sentence explanation of *why* they are different."
  ++ "\n"
  ++ "4.  **PROFESSIONAL FORMATTING:** Your response MUST be in two sections: 'The Answer' and 'Source Links', separated by a horizontal line (`---`). Use **bolding** for key items."
  ++ "\n"
  ++ "5.  **CONDITIONAL TIMESTAMP:** You MUST add a timestamp (e.g., 'As of 12:01 PM on October 26, 2025, ...') **ONLY** for queries about volatile, real-time data like stock prices or cryptocurrency. Do **NOT** add a timestamp for static lists like 'Top 5 companies'."
  ++ "\n"
  ++ "6.  **NUMBER FORMATTING:** All prices in INR (Indian Rupees) MUST be formatted with Indian comma separators (e.g., ₹1,01,20,088.16)."
  ++ "\n\n"
  ++ "--- EXAMPLE 1: Static Ranking (e.g., 'Top 5 companies') ---"
  ++ "\n"
  ++ "**The Answer:**"
  ++ "\n"
  ++ "Based on recent market cap data from authoritative sources, the top 5 IT companies in India are:"
  ++ "\n"
  ++ "1. **Tata Consultancy Services (TCS)**"
  ++ "\n"
  ++ "2. **Infosys**"
  ++ "\n"
  ++ "3. **HCL Technologies**"
  ++ "\n"
  ++ "4. **Wipro**"
  ++ "\n"
  ++ "5. **LTIMindtree**"
  ++ "\n\n"
  ++ "---"
  ++ "\n"
  ++ "**Source Links:**"
  ++ "\n"
  ++ "- [Forbes India: Top IT companies in India](https://www.forbesindia.com/article/explainers/top-10-it-companies-in-india/87143/1)"
  ++ "\n"
  ++ "- [CompaniesMarketCap: Largest IT Service Companies](https://companiesmarketcap.com/inr/it-services/largest-it-service-companies-by-market-cap/)"
  ++ "\n"
  ++ "--- EXAMPLE 2: Volatile Price (e.g., 'Price of Bitcoin in INR') ---"
  ++ "\n"
  ++ "**The Answer:**"
  ++ "\n"
  ++ "As of " ++ now_str ++ ", the price of Bitcoin in INR varies slightly across different exchanges. Here are the current prices as found in the search results:"
  ++ "\n"
  ++ "- **On Mudrex:** ₹1,01,20,088.16"
  ++ "\n"
  ++ "- **On CoinMarketCap:** ₹97,99,606.42"
  ++ "\n"
  ++ "- **On CoinSwitch:** Price not found in search snippet."
  ++ "\n\n"
  ++ "*Note: Prices vary by exchange based on their specific order books and trading volume.*"
  ++ "\n\n"
  ++ "---"
  ++ "\n"
  ++ "**Source Links:**"
  ++ "\n"
  ++ "- [Mudrex: BTC to INR](https://mudrex.com/converter/btc/inr)"
  ++ "\n"
  ++ "- [CoinMarketCap: BTC to INR](https://coinmarketcap.com/currencies/bitcoin/btc/inr/)"
  ++ "\n"
  ++ "- [CoinSwitch: BTC/INR Price](https://coinswitch.co/pro/btc-inr/csx)"
  ++ "\n"
  ++ "--- END OF EXAMPLES ---"
  ++ "\n\n"
  ++ "Your task is to populate the correct template. The tool results are a list of dictionaries like `\x7b'url': '...', 'content': '...'\x7d`. "
  ++ "You must extract the `url` and `content` to build your answer. You MUST use the *real* URLs from the tool output."

/-- The system prompt chosen by `agent_node` for the non-vision personas
(agent.py, lines 164-245). -/
def system_prompt_for (persona now_str : String) : String :=
  if persona = "Financial Analyst" then financial_system_prompt now_str
  else if persona = "Creative Writer" then "You are a helpful creative writing assistant."
  else "You are a helpful assistant."

/-- `agent_node` (agent.py, lines 147-251): constructs the backend via
`make_llm`, builds the persona-specific input (the Vision Agent gets the
raw messages, everyone else a prepended system message), binds the search
tool exactly for the Financial Analyst, invokes the backend, and appends
its response; `none` models the fatal `KeyError`/`ValueError` escapes. -/
def agent_step (b : Backend) (groq_key : Bool) (now_str : String)
    (st : AgentState) : Option AgentState :=
  match st.persona, st.selected_model_name, st.selected_model_provider with
  | some p, some mn, some mp =>
    match make_llm mn mp groq_key with
    | .error _ => none
    | .ok model =>
      let input :=
        if p = "Vision Agent" then st.messages
        else Message.system (.str (system_prompt_for p now_str)) :: st.messages
      let ai := b (p == "Financial Analyst") model input
      some { st with messages := st.messages ++ [ai] }
  | _, _, _ => none

/-- `should_continue` (agent.py, lines 253-264). -/
def should_continue (m : Message) : String :=
  if msg_has_tool_calls m then "tools"
  else if isToolMsg m then "agent"
  else "__end__"

/-- The conditional loop of the compiled graph (agent.py, lines 286-295):
run `agent`, inspect the latest message with `should_continue`, and either
run the tools and re-enter `agent`, re-enter `agent` directly (synthesis),
or stop. Returns the final state together with the number of `agent`
executions and of tool invocations; `none` models the recursion limit
(`fuel`) being exhausted or a fatal error. -/
def agentLoop (b : Backend) (tx : ToolExec) (groq_key : Bool)
    (now_str : String) : Nat → AgentState → Option (AgentState × Nat × Nat)
  | 0, _ => none
  | fuel + 1, st =>
    match agent_step b groq_key now_str st with
    | none => none
    | some st2 =>
      match st2.messages.getLast? with
      | none => none
      | some lm =>
        if should_continue lm = "tools" then
          match agentLoop b tx groq_key now_str fuel
              { st2 with messages := st2.messages ++ tx (toolCallsOf lm) } with
          | none => none
          | some (fin, a, t) => some (fin, a + 1, t + 1)
        else if should_continue lm = "agent" then
          match agentLoop b tx groq_key now_str fuel st2 with
          | none => none
          | some (fin, a, t) => some (fin, a + 1, t)
        else
          some (st2, 1, 0)

/-- `HumanMessage(content=m)` for a caller-supplied turn. -/
def mkHumanText (m : String) : Message := .user (.str m)

/-- The image attachment of `get_response` (agent.py, lines 301-310):
when image data is supplied (Python truthiness: a non-empty string) and
there is at least one turn, the final turn becomes a multimodal content
block of its text plus the image URL. -/
def attach_image (human : List Message) : Option String → List Message
  | none => human
  | some d =>
    if d = "" then human
    else
      match human.getLast? with
      | none => human
      | some lm =>
        human.dropLast ++
          [Message.user (.parts
            [.text (contentToString (contentOf lm)),
             .imageUrl ("data:image/jpeg;base64," ++ d)])]

/-- The initial graph state built by `get_response` (agent.py, line 312):
only `messages` is populated. -/
def init_state (messages : List String) (image_data : Option String) :
    AgentState :=
  ⟨attach_image (messages.map mkHumanText) image_data, none, none, none⟩

/-- The full result of one invocation, for stating the claims: the routed
persona and capability, the final message sequence, the returned string,
and how many times the generation step and the tool node ran. -/
structure RunResult where
  persona : String
  selected_model_name : String
  selected_model_provider : String
  messages : List Message
  answer : String
  agentRuns : Nat
  toolRuns : Nat
deriving DecidableEq

/-- `get_response` (agent.py, lines 267-323): build the initial state, run
`persona_router`, `model_router` and the agent/tool loop, and extract the
final answer (with the apology fallback of lines 320-322). The
`system_prompt` and `allow_search` parameters are accepted, as in the
source, and the source never reads them. -/
def get_response_full (b : Backend) (tx : ToolExec) (groq_key : Bool)
    (now_str : String) (fuel : Nat) (system_prompt : String)
    (messages : List String) (allow_search : Bool)
    (image_data : Option String) : Option RunResult :=
  let st0 := init_state messages image_data
  match persona_router_step st0 with
  | none => none
  | some st1 =>
    match model_router_step st1 with
    | none => none
    | some st2 =>
      match agentLoop b tx groq_key now_str fuel st2 with
      | none => none
      | some (fin, a, t) =>
        match fin.persona, fin.selected_model_name, fin.selected_model_provider with
        | some p, some mn, some mp =>
          let ans :=
            match fin.messages.getLast? with
            | some lm => contentToString (contentOf lm)
            | none => "Sorry, I encountered an issue processing the final response."
          some ⟨p, mn, mp, fin.messages, ans, a, t⟩
        | _, _, _ => none

/-- The string actually returned to the transport layer. -/
def get_response (b : Backend) (tx : ToolExec) (groq_key : Bool)
    (now_str : String) (fuel : Nat) (system_prompt : String)
    (messages : List String) (allow_search : Bool)
    (image_data : Option String) : Option String :=
  (get_response_full b tx groq_key now_str fuel system_prompt messages
    allow_search image_data).map RunResult.answer

/-! ## Lemmas about the sanitizer pipeline -/

/-- Executable scanner: no adjacent pair of `l` satisfies `P`. -/
def pairFreeB (P : Char → Char → Bool) : List Char → Bool
  | [] => true
  | [_] => true
  | a :: b :: r => !P a b && pairFreeB P (b :: r)

theorem pairFreeB_iff_chain' (P : Char → Char → Bool) :
    ∀ l : List Char, pairFreeB P l = true ↔ l.Chain' fun a b => P a b = false
  | [] => by simp [pairFreeB]
  | [c] => by simp [pairFreeB]
  | a :: b :: r => by
    rw [pairFreeB, List.chain'_cons, Bool.and_eq_true, Bool.not_eq_true']
    exact and_congr Iff.rfl (pairFreeB_iff_chain' P (b :: r))

theorem asciiLetter_space : asciiLetter ' ' = false := by decide

theorem asciiDigit_space : asciiDigit ' ' = false := by decide

theorem junkChar_space : junkChar ' ' = false := by decide

theorem dlPair_space_right (a : Char) : dlPair a ' ' = false := by
  simp [dlPair, asciiLetter_space]

theorem dlPair_space_left (b : Char) : dlPair ' ' b = false := by
  simp [dlPair, asciiDigit_space]

theorem ldPair_space_right (a : Char) : ldPair a ' ' = false := by
  simp [ldPair, asciiDigit_space]

theorem ldPair_space_left (b : Char) : ldPair ' ' b = false := by
  simp [ldPair, asciiLetter_space]

theorem head?_insertPair (Q : Char → Char → Bool) :
    ∀ l : List Char, (insertPair Q l).head? = l.head?
  | [] => rfl
  | [_] => rfl
  | _ :: _ :: _ => by rw [insertPair]; split <;> rfl

theorem chain'_insertPair_self (Q : Char → Char → Bool)
    (h1 : ∀ a, Q a ' ' = false) (h2 : ∀ b, Q ' ' b = false) :
    ∀ l, (insertPair Q l).Chain' fun a b => Q a b = false
  | [] => by simp [insertPair]
  | [c] => by simp [insertPair]
  | a :: b :: r => by
    rw [insertPair]
    by_cases hQ : Q a b = true
    · rw [if_pos hQ]
      refine List.chain'_cons.mpr ⟨h1 a, ?_⟩
      exact List.chain'_cons'.mpr
        ⟨fun y _ => h2 y, chain'_insertPair_self Q h1 h2 (b :: r)⟩
    · rw [if_neg hQ]
      refine List.chain'_cons'.mpr
        ⟨?_, chain'_insertPair_self Q h1 h2 (b :: r)⟩
      intro y hy
      rw [head?_insertPair] at hy
      simp only [List.head?_cons, Option.mem_def, Option.some.injEq] at hy
      subst hy
      exact Bool.not_eq_true _ ▸ hQ

theorem chain'_insertPair_pres (Q P : Char → Char → Bool)
    (h1 : ∀ a, P a ' ' = false) (h2 : ∀ b, P ' ' b = false) :
    ∀ l, (l.Chain' fun a b => P a b = false) →
      (insertPair Q l).Chain' fun a b => P a b = false
  | [], _ => by simp [insertPair]
  | [c], _ => by simp [insertPair]
  | a :: b :: r, h => by
    obtain ⟨hab, htail⟩ := List.chain'_cons.mp h
    rw [insertPair]
    by_cases hQ : Q a b = true
    · rw [if_pos hQ]
      exact List.chain'_cons.mpr ⟨h1 a, List.chain'_cons'.mpr
        ⟨fun y _ => h2 y, chain'_insertPair_pres Q P h1 h2 (b :: r) htail⟩⟩
    · rw [if_neg hQ]
      refine List.chain'_cons'.mpr
        ⟨?_, chain'_insertPair_pres Q P h1 h2 (b :: r) htail⟩
      intro y hy
      rw [head?_insertPair] at hy
      simp only [List.head?_cons, Option.mem_def, Option.some.injEq] at hy
      subst hy
      exact hab

theorem insertPair_id (Q : Char → Char → Bool) :
    ∀ l, (l.Chain' fun a b => Q a b = false) → insertPair Q l = l
  | [], _ => rfl
  | [_], _ => rfl
  | a :: b :: r, h => by
    obtain ⟨hab, htail⟩ := List.chain'_cons.mp h
    rw [insertPair, if_neg (by simp [hab]), insertPair_id Q (b :: r) htail]

theorem mem_insertPair (Q : Char → Char → Bool) :
    ∀ l c, c ∈ insertPair Q l → c ∈ l ∨ c = ' '
  | [], c, h => by simp [insertPair] at h
  | [d], c, h => by
    rw [insertPair] at h
    simp only [List.mem_singleton] at h
    exact Or.inl (by simp [h])
  | a :: b :: r, c, h => by
    rw [insertPair] at h
    by_cases hQ : Q a b = true
    · rw [if_pos hQ] at h
      simp only [List.mem_cons] at h
      rcases h with rfl | rfl | h
      · exact Or.inl (List.mem_cons_self _ _)
      · exact Or.inr rfl
      · rcases mem_insertPair Q (b :: r) c h with h | h
        · exact Or.inl (List.mem_cons_of_mem a h)
        · exact Or.inr h
    · rw [if_neg hQ] at h
      simp only [List.mem_cons] at h
      rcases h with rfl | h
      · exact Or.inl (List.mem_cons_self _ _)
      · rcases mem_insertPair Q (b :: r) c h with h | h
        · exact Or.inl (List.mem_cons_of_mem a h)
        · exact Or.inr h

theorem mem_step1 {l : List Char} {c : Char} (h : c ∈ step1 l) :
    c ∈ l ∨ c = ' ' := by
  rw [step1, List.mem_map] at h
  obtain ⟨a, ha, rfl⟩ := h
  by_cases hj : junkChar a = true
  · rw [if_pos hj]; exact Or.inr rfl
  · rw [Bool.not_eq_true] at hj
    rw [if_neg (by simp [hj])]
    exact Or.inl ha

theorem step1_junkFree (l : List Char) :
    ∀ c ∈ step1 l, junkChar c = false := by
  intro c hc
  rw [step1, List.mem_map] at hc
  obtain ⟨a, ha, rfl⟩ := hc
  by_cases hj : junkChar a = true
  · rw [if_pos hj]; exact junkChar_space
  · rw [Bool.not_eq_true] at hj
    rw [if_neg (by simp [hj])]
    exact hj

theorem step1_id : ∀ l : List Char,
    (∀ c ∈ l, junkChar c = false) → step1 l = l
  | [], _ => rfl
  | c :: r, h => by
    show (if junkChar c then ' ' else c) :: step1 r = c :: r
    rw [if_neg (by simp [h c (List.mem_cons_self c r)]),
      step1_id r fun d hd => h d (List.mem_cons_of_mem c hd)]

theorem mem_findClose : ∀ l l2 : List Char, findClose l = some l2 →
    ∀ c ∈ l2, c ∈ l
  | [], _, h => by simp [findClose] at h
  | d :: r, l2, h => by
    rw [findClose] at h
    by_cases hd : d = ']'
    · rw [if_pos hd] at h
      cases h
      intro c hc
      exact List.mem_cons_of_mem d hc
    · rw [if_neg hd] at h
      by_cases hn : d = '\n'
      · rw [if_pos hn] at h; cases h
      · rw [if_neg hn] at h
        intro c hc
        exact List.mem_cons_of_mem d (mem_findClose r l2 h c hc)

theorem remBrAux_id : ∀ (fuel : Nat) (l : List Char),
    (∀ c ∈ l, c ≠ '[') → remBrAux fuel l = l
  | fuel, [], _ => by cases fuel <;> rfl
  | 0, _ :: _, _ => rfl
  | fuel + 1, c :: r, h => by
    rw [remBrAux, if_neg (h c (List.mem_cons_self c r)),
      remBrAux_id fuel r fun d hd => h d (List.mem_cons_of_mem c hd)]

theorem mem_remBrAux : ∀ (fuel : Nat) (l : List Char) (c : Char),
    c ∈ remBrAux fuel l → c ∈ l
  | fuel, [], c, h => by cases fuel <;> simp [remBrAux] at h
  | 0, _ :: _, _, h => h
  | fuel + 1, d :: r, c, h => by
    rw [remBrAux] at h
    by_cases hd : d = '['
    · rw [if_pos hd] at h
      cases hfc : findClose r with
      | some r2 =>
        rw [hfc] at h
        exact List.mem_cons_of_mem d
          (mem_findClose r r2 hfc c (mem_remBrAux fuel r2 c h))
      | none =>
        rw [hfc] at h
        rcases List.mem_cons.mp h with rfl | h2
        · exact List.mem_cons_self _ _
        · exact List.mem_cons_of_mem d (mem_remBrAux fuel r c h2)
    · rw [if_neg hd] at h
      rcases List.mem_cons.mp h with rfl | h2
      · exact List.mem_cons_self _ _
      · exact List.mem_cons_of_mem d (mem_remBrAux fuel r c h2)

theorem head?_collapseWs : ∀ l : List Char,
    (collapseWs l).head? = l.head?.map fun c => if pySpace c then ' ' else c
  | [] => rfl
  | [c] => by
    rw [collapseWs]
    by_cases h : pySpace c = true
    · rw [if_pos h]; simp [h]
    · rw [Bool.not_eq_true] at h
      rw [if_neg (by simp [h])]
      simp [h]
  | a :: b :: r => by
    rw [collapseWs]
    by_cases hab : (pySpace a && pySpace b) = true
    · rw [if_pos hab, head?_collapseWs (b :: r)]
      simp only [Bool.and_eq_true] at hab
      simp [hab.1, hab.2]
    · rw [if_neg hab]; simp

theorem chain'_collapseWs_pres (P : Char → Char → Bool)
    (h1 : ∀ a, P a ' ' = false) (h2 : ∀ b, P ' ' b = false) :
    ∀ l, (l.Chain' fun a b => P a b = false) →
      (collapseWs l).Chain' fun a b => P a b = false
  | [], _ => by simp [collapseWs]
  | [c], _ => by rw [collapseWs]; split <;> simp
  | a :: b :: r, h => by
    obtain ⟨hab, htail⟩ := List.chain'_cons.mp h
    rw [collapseWs]
    by_cases hs : (pySpace a && pySpace b) = true
    · rw [if_pos hs]
      exact chain'_collapseWs_pres P h1 h2 (b :: r) htail
    · rw [if_neg hs]
      refine List.chain'_cons'.mpr
        ⟨?_, chain'_collapseWs_pres P h1 h2 (b :: r) htail⟩
      intro y hy
      rw [head?_collapseWs (b :: r)] at hy
      simp only [List.head?_cons, Option.map_some', Option.mem_def,
        Option.some.injEq] at hy
      subst hy
      by_cases ha : pySpace a = true
      · rw [if_pos ha]; exact h2 _
      · rw [Bool.not_eq_true] at ha
        rw [if_neg (by simp [ha])]
        by_cases hb : pySpace b = true
        · rw [if_pos hb]; exact h1 a
        · rw [Bool.not_eq_true] at hb
          rw [if_neg (by simp [hb])]
          exact hab

theorem chain'_collapseWs_ss :
    ∀ l, (collapseWs l).Chain' fun a b => (pySpace a && pySpace b) = false
  | [] => by simp [collapseWs]
  | [c] => by rw [collapseWs]; split <;> simp
  | a :: b :: r => by
    rw [collapseWs]
    by_cases hs : (pySpace a && pySpace b) = true
    · rw [if_pos hs]; exact chain'_collapseWs_ss (b :: r)
    · rw [if_neg hs]
      refine List.chain'_cons'.mpr ⟨?_, chain'_collapseWs_ss (b :: r)⟩
      intro y hy
      rw [head?_collapseWs (b :: r)] at hy
      simp only [List.head?_cons, Option.map_some', Option.mem_def,
        Option.some.injEq] at hy
      subst hy
      by_cases ha : pySpace a = true
      · have hb : pySpace b = false := by
          rcases Bool.eq_false_or_eq_true (pySpace b) with h | h
          · exact absurd (by simp [ha, h]) hs
          · exact h
        rw [if_pos ha, if_neg (by simp [hb])]
        simp [hb]
      · rw [Bool.not_eq_true] at ha
        rw [if_neg (by simp [ha])]
        simp [ha]

theorem mem_collapseWs : ∀ (l : List Char) (c : Char),
    c ∈ collapseWs l → c ∈ l ∨ c = ' '
  | [], c, h => by simp [collapseWs] at h
  | [d], c, h => by
    rw [collapseWs] at h
    by_cases hd : pySpace d = true
    · rw [if_pos hd] at h
      simp only [List.mem_singleton] at h
      exact Or.inr h
    · rw [Bool.not_eq_true] at hd
      rw [if_neg (by simp [hd])] at h
      simp only [List.mem_singleton] at h
      exact Or.inl (by simp [h])
  | a :: b :: r, c, h => by
    rw [collapseWs] at h
    by_cases hs : (pySpace a && pySpace b) = true
    · rw [if_pos hs] at h
      rcases mem_collapseWs (b :: r) c h with h2 | h2
      · exact Or.inl (List.mem_cons_of_mem a h2)
      · exact Or.inr h2
    · rw [if_neg hs] at h
      rcases List.mem_cons.mp h with rfl | h2
      · by_cases ha : pySpace a = true
        · rw [if_pos ha]; exact Or.inr rfl
        · rw [Bool.not_eq_true] at ha
          rw [if_neg (by simp [ha])]
          exact Or.inl (List.mem_cons_self a _)
      · rcases mem_collapseWs (b :: r) c h2 with h3 | h3
        · exact Or.inl (List.mem_cons_of_mem a h3)
        · exact Or.inr h3

theorem collapseWs_spacesNormal : ∀ (l : List Char) (c : Char),
    c ∈ collapseWs l → pySpace c = true → c = ' '
  | [], c, hc, _ => by simp [collapseWs] at hc
  | [d], c, hc, hsp => by
    rw [collapseWs] at hc
    by_cases hd : pySpace d = true
    · rw [if_pos hd] at hc
      simpa using hc
    · rw [Bool.not_eq_true] at hd
      rw [if_neg (by simp [hd])] at hc
      simp only [List.mem_singleton] at hc
      subst hc
      rw [hd] at hsp
      cases hsp
  | a :: b :: r, c, hc, hsp => by
    rw [collapseWs] at hc
    by_cases hs : (pySpace a && pySpace b) = true
    · rw [if_pos hs] at hc
      exact collapseWs_spacesNormal (b :: r) c hc hsp
    · rw [if_neg hs] at hc
      rcases List.mem_cons.mp hc with rfl | h2
      · by_cases ha : pySpace a = true
        · rw [if_pos ha]
        · rw [Bool.not_eq_true] at ha
          rw [if_neg (by simp [ha])] at hsp
          rw [ha] at hsp
          cases hsp
      · exact collapseWs_spacesNormal (b :: r) c h2 hsp

theorem collapseWs_id :
    ∀ l : List Char, (∀ c ∈ l, pySpace c = true → c = ' ') →
      (l.Chain' fun a b => (pySpace a && pySpace b) = false) →
      collapseWs l = l
  | [], _, _ => rfl
  | [d], hn, _ => by
    rw [collapseWs]
    by_cases hd : pySpace d = true
    · rw [if_pos hd, hn d (List.mem_singleton_self d) hd]
    · rw [Bool.not_eq_true] at hd
      rw [if_neg (by simp [hd])]
  | a :: b :: r, hn, hch => by
    obtain ⟨hab, htail⟩ := List.chain'_cons.mp hch
    rw [collapseWs, if_neg (by simp [hab])]
    have hrest := collapseWs_id (b :: r)
      (fun c hc => hn c (List.mem_cons_of_mem a hc)) htail
    by_cases ha : pySpace a = true
    · have haEq : a = ' ' := hn a (List.mem_cons_self a _) ha
      rw [if_pos ha, hrest, haEq]
    · rw [Bool.not_eq_true] at ha
      rw [if_neg (by simp [ha]), hrest]

theorem dropWhile_dropWhile (p : Char → Bool) :
    ∀ l : List Char, (l.dropWhile p).dropWhile p = l.dropWhile p
  | [] => rfl
  | c :: r => by
    by_cases hc : p c = true
    · simp only [List.dropWhile_cons, hc, if_true]
      exact dropWhile_dropWhile p r
    · rw [Bool.not_eq_true] at hc
      simp [List.dropWhile_cons, hc]

theorem dropWhile_head_not (p : Char → Bool) :
    ∀ (l : List Char) (c : Char) (r : List Char),
      l.dropWhile p = c :: r → p c = false
  | [], c, r, h => by simp at h
  | d :: t, c, r, h => by
    rw [List.dropWhile_cons] at h
    by_cases hd : p d = true
    · rw [if_pos hd] at h
      exact dropWhile_head_not p t c r h
    · rw [Bool.not_eq_true] at hd
      rw [if_neg (by simp [hd])] at h
      cases h
      exact hd

theorem rstrip_rstrip (l : List Char) : rstrip (rstrip l) = rstrip l := by
  show ((((l.reverse.dropWhile pySpace).reverse).reverse.dropWhile pySpace)).reverse
      = rstrip l
  rw [List.reverse_reverse, dropWhile_dropWhile]
  rfl

theorem rstrip_append (l : List Char) :
    rstrip l ++ (l.reverse.takeWhile pySpace).reverse = l := by
  rw [rstrip, ← List.reverse_append, List.takeWhile_append_dropWhile,
    List.reverse_reverse]

theorem dropWhile_rstrip (l : List Char) (h : l.dropWhile pySpace = l) :
    (rstrip l).dropWhile pySpace = rstrip l := by
  cases hr : rstrip l with
  | nil => rfl
  | cons c r =>
    have hl : l = c :: (r ++ (l.reverse.takeWhile pySpace).reverse) := by
      conv_lhs => rw [← rstrip_append l]
      rw [hr, List.cons_append]
    have hc : pySpace c = false :=
      dropWhile_head_not pySpace l c _ (h.trans hl)
    rw [List.dropWhile_cons, if_neg (by simp [hc])]

theorem stripEnds_idem (l : List Char) :
    stripEnds (stripEnds l) = stripEnds l := by
  show rstrip ((rstrip (l.dropWhile pySpace)).dropWhile pySpace)
      = rstrip (l.dropWhile pySpace)
  rw [dropWhile_rstrip _ (dropWhile_dropWhile pySpace l), rstrip_rstrip]

theorem chain'_dropWhile (p : Char → Bool) (R : Char → Char → Prop) :
    ∀ l : List Char, l.Chain' R → (l.dropWhile p).Chain' R
  | [], h => h
  | c :: r, h => by
    rw [List.dropWhile_cons]
    by_cases hc : p c = true
    · rw [if_pos hc]
      exact chain'_dropWhile p R r (List.chain'_cons'.mp h).2
    · rw [Bool.not_eq_true] at hc
      rw [if_neg (by simp [hc])]
      exact h

theorem chain'_rstrip (R : Char → Char → Prop) (l : List Char)
    (h : l.Chain' R) : (rstrip l).Chain' R := by
  rw [rstrip, List.chain'_reverse]
  exact chain'_dropWhile pySpace _ _ (List.chain'_reverse.mpr h)

theorem chain'_stripEnds (R : Char → Char → Prop) (l : List Char)
    (h : l.Chain' R) : (stripEnds l).Chain' R :=
  chain'_rstrip R _ (chain'_dropWhile pySpace R l h)

theorem mem_stripEnds (l : List Char) (c : Char) (h : c ∈ stripEnds l) :
    c ∈ l := by
  rw [stripEnds, rstrip, List.mem_reverse] at h
  have h1 : c ∈ (l.dropWhile pySpace).reverse :=
    List.Sublist.mem h (List.dropWhile_sublist pySpace)
  rw [List.mem_reverse] at h1
  exact List.Sublist.mem h1 (List.dropWhile_sublist pySpace)

/-! ### The cleaned list: invariants and idempotence -/

theorem mem_cleanedList (l : List Char) (c : Char) (h : c ∈ cleanedList l) :
    c ∈ l ∨ c = ' ' := by
  rw [cleanedList] at h
  have h1 := mem_stripEnds _ _ h
  rcases mem_collapseWs _ _ h1 with h2 | h2
  · rcases mem_insertPair _ _ _ (mem_remBrAux _ _ _ h2) with h3 | h3
    · rcases mem_insertPair _ _ _ h3 with h4 | h4
      · exact mem_step1 h4
      · exact Or.inr h4
    · exact Or.inr h3
  · exact Or.inr h2

theorem cleanedList_junkFree (l : List Char) :
    ∀ c ∈ cleanedList l, junkChar c = false := by
  intro c hc
  rw [cleanedList] at hc
  have h1 := mem_stripEnds _ _ hc
  rcases mem_collapseWs _ _ h1 with h2 | h2
  · rcases mem_insertPair _ _ _ (mem_remBrAux _ _ _ h2) with h3 | h3
    · rcases mem_insertPair _ _ _ h3 with h4 | h4
      · exact step1_junkFree l c h4
      · subst h4; exact junkChar_space
    · subst h3; exact junkChar_space
  · subst h2; exact junkChar_space

theorem cleanedList_noBracket (l : List Char) (h : ∀ c ∈ l, c ≠ '[') :
    ∀ c ∈ cleanedList l, c ≠ '[' := by
  intro c hc hceq
  subst hceq
  rcases mem_cleanedList l _ hc with h2 | h2
  · exact h _ h2 rfl
  · cases h2

theorem preClean_noBracket (l : List Char) (h : ∀ c ∈ l, c ≠ '[') :
    ∀ c ∈ insertPair ldPair (insertPair dlPair (step1 l)), c ≠ '[' := by
  intro c hc hceq
  subst hceq
  rcases mem_insertPair _ _ _ hc with h3 | h3
  · rcases mem_insertPair _ _ _ h3 with h4 | h4
    · rcases mem_step1 h4 with h5 | h5
      · exact h _ h5 rfl
      · cases h5
    · cases h4
  · cases h3

theorem cleanedList_dlFree (l : List Char) (h : ∀ c ∈ l, c ≠ '[') :
    (cleanedList l).Chain' fun a b => dlPair a b = false := by
  rw [cleanedList, remBr,
    remBrAux_id _ _ (preClean_noBracket l h)]
  exact chain'_stripEnds _ _ (chain'_collapseWs_pres dlPair
    dlPair_space_right dlPair_space_left _
    (chain'_insertPair_pres ldPair dlPair dlPair_space_right dlPair_space_left _
      (chain'_insertPair_self dlPair dlPair_space_right dlPair_space_left _)))

theorem cleanedList_ldFree (l : List Char) (h : ∀ c ∈ l, c ≠ '[') :
    (cleanedList l).Chain' fun a b => ldPair a b = false := by
  rw [cleanedList, remBr,
    remBrAux_id _ _ (preClean_noBracket l h)]
  exact chain'_stripEnds _ _ (chain'_collapseWs_pres ldPair
    ldPair_space_right ldPair_space_left _
    (chain'_insertPair_self ldPair ldPair_space_right ldPair_space_left _))

theorem cleanedList_ssFree (l : List Char) :
    (cleanedList l).Chain' fun a b => (pySpace a && pySpace b) = false := by
  rw [cleanedList]
  exact chain'_stripEnds _ _ (chain'_collapseWs_ss _)

theorem cleanedList_spacesNormal (l : List Char) :
    ∀ c ∈ cleanedList l, pySpace c = true → c = ' ' := by
  intro c hc
  rw [cleanedList] at hc
  exact collapseWs_spacesNormal _ c (mem_stripEnds _ _ hc)

theorem cleanedList_idem (l : List Char) (h : ∀ c ∈ l, c ≠ '[') :
    cleanedList (cleanedList l) = cleanedList l := by
  have hjunk := cleanedList_junkFree l
  have hdl := cleanedList_dlFree l h
  have hld := cleanedList_ldFree l h
  have hnb := cleanedList_noBracket l h
  have hnorm := cleanedList_spacesNormal l
  have hss := cleanedList_ssFree l
  show stripEnds (collapseWs (remBr (insertPair ldPair
    (insertPair dlPair (step1 (cleanedList l)))))) = cleanedList l
  rw [step1_id _ hjunk, insertPair_id dlPair _ hdl, insertPair_id ldPair _ hld,
    remBr, remBrAux_id _ _ hnb, collapseWs_id _ hnorm hss]
  exact stripEnds_idem _

/-! ## Lemmas about the routers -/

theorem foldl_scanStep_snd :
    ∀ (ps : List ContentPart) (q : String) (hi : Bool),
      (ps.foldl scanStep (q, hi)).2 = (hi || ps.any partIsImage)
  | [], q, hi => by simp
  | p :: ps, q, hi => by
    rw [List.foldl_cons]
    cases p with
    | text t =>
      rw [show scanStep (q, hi) (.text t) = (strLower t, hi) from rfl,
        foldl_scanStep_snd ps _ hi]
      simp [partIsImage]
    | imageUrl u =>
      rw [show scanStep (q, hi) (.imageUrl u) = (q, true) from rfl,
        foldl_scanStep_snd ps q true]
      simp [partIsImage]
    | other =>
      rw [show scanStep (q, hi) ContentPart.other = (q, hi) from rfl,
        foldl_scanStep_snd ps q hi]
      simp [partIsImage]

/-- The image flag computed by `persona_router_node` coincides with the
image scan of `model_router_node` on the same latest message. -/
theorem extract_snd (m : Message) :
    (extractQueryImage (contentOf m)).2 = msgHasImage m := by
  cases hm : contentOf m with
  | str s => simp [extractQueryImage, msgHasImage, hm]
  | parts ps => simp [extractQueryImage, msgHasImage, hm, foldl_scanStep_snd]
  | other => simp [extractQueryImage, msgHasImage, hm]

theorem persona_router_node_eq (m : Message) :
    persona_router_node m =
      if msgHasImage m then "Vision Agent"
      else if matchesKeyword (extractQueryImage (contentOf m)).1 then
        "Financial Analyst"
      else "Creative Writer" := by
  show (if (extractQueryImage (contentOf m)).2 = true then "Vision Agent"
    else if matchesKeyword (extractQueryImage (contentOf m)).1 = true then
      "Financial Analyst"
    else "Creative Writer") = _
  rw [extract_snd]

/-- After the persona router has classified the latest message, the model
router always resolves a model, with provider GROQ. -/
theorem model_router_total (m : Message) :
    ∃ mn, model_router_node m (persona_router_node m) = .ok (mn, "GROQ") := by
  by_cases hi : msgHasImage m = true
  · exact ⟨"meta-llama/Llama-4-scout-17b-16e-instruct",
      by rw [model_router_node, if_pos hi]⟩
  · rw [Bool.not_eq_true] at hi
    have hper : persona_router_node m = "Financial Analyst" ∨
        persona_router_node m = "Creative Writer" := by
      rw [persona_router_node_eq, if_neg (by simp [hi])]
      by_cases hk : matchesKeyword (extractQueryImage (contentOf m)).1 = true
      · rw [if_pos hk]
        exact Or.inl rfl
      · rw [if_neg hk]
        exact Or.inr rfl
    rcases hper with hper | hper
    · refine ⟨"llama-3.3-70b-versatile", ?_⟩
      rw [model_router_node, if_neg (by simp [hi]), hper]
      rfl
    · refine ⟨"llama-3.1-8b-instant", ?_⟩
      rw [model_router_node, if_neg (by simp [hi]), hper]
      rfl

/-! ## Claim theorems -/

/-- **C1**: persona classification is first-match-wins in priority order
image > keyword > default. If the latest turn's content contains an image
part the persona is "Vision Agent" regardless of any text; otherwise, if
the lower-cased text extracted from the latest turn contains any keyword
of the fixed financial list the persona is "Financial Analyst"; otherwise
it is "Creative Writer". -/
theorem persona_first_match_wins (m : Message) :
    (msgHasImage m = true → persona_router_node m = "Vision Agent") ∧
    (msgHasImage m = false →
      matchesKeyword (extractQueryImage (contentOf m)).1 = true →
      persona_router_node m = "Financial Analyst") ∧
    (msgHasImage m = false →
      matchesKeyword (extractQueryImage (contentOf m)).1 = false →
      persona_router_node m = "Creative Writer") := by
  refine ⟨?_, ?_, ?_⟩
  · intro hi
    rw [persona_router_node_eq, if_pos hi]
  · intro hi hk
    rw [persona_router_node_eq, if_neg (by simp [hi]), if_pos hk]
  · intro hi hk
    rw [persona_router_node_eq, if_neg (by simp [hi]), if_neg (by simp [hk])]

/-- Witness for `persona_first_match_wins` on the three concrete shapes. -/
theorem persona_first_match_wins_wit :
    persona_router_node
      (Message.user (.parts [.text "What is the PRICE of bitcoin?", .imageUrl "u"]))
      = "Vision Agent" ∧
    persona_router_node
      (Message.user (.str "What is the price of Bitcoin in INR?"))
      = "Financial Analyst" ∧
    persona_router_node
      (Message.user (.str "Write me a short poem about rain"))
      = "Creative Writer" :=
  ⟨(persona_first_match_wins _).1 (by decide),
   (persona_first_match_wins _).2.1 (by decide) (by decide),
   (persona_first_match_wins _).2.2 (by decide) (by decide)⟩

/-- **C3**: the search adapter never raises past its boundary: whenever
the provider invocation raises or returns an empty result set,
`tavily_search` returns exactly one record, and that record carries the
error field. -/
theorem tavily_search_error_shape (o : ProviderOutcome)
    (h : (∃ e, o = .exn e) ∨ o = .ok []) :
    (tavily_search o).length = 1 ∧
    ∀ r ∈ tavily_search o, r.isError = true := by
  rcases h with ⟨e, rfl⟩ | rfl
  · exact ⟨rfl, by simp [tavily_search, SearchRecord.isError]⟩
  · exact ⟨rfl, by simp [tavily_search, SearchRecord.isError]⟩

/-- Witness for `tavily_search_error_shape` at a concrete exception. -/
theorem tavily_search_error_shape_wit :
    (tavily_search (.exn "boom")).length = 1 ∧
    ∀ r ∈ tavily_search (.exn "boom"), r.isError = true :=
  tavily_search_error_shape _ (Or.inl ⟨"boom", rfl⟩)

/-- **C4** counterexample: capability selection is not total on the pair
(persona = "Vision Agent", no image) - `model_router_node` raises there
instead of resolving a capability identifier. -/
theorem model_router_not_total :
    model_router_node (Message.user (.str "hello")) "Vision Agent" =
      Except.error "Could not determine a suitable model for the request." := rfl

/-- **C4** (amended): over the three persona values combined with image
presence, image presence selects the vision-capable model regardless of
persona, the two non-vision personas map to their models when no image is
present, and the loud `ValueError` is raised exactly on the one unmapped
pair ("Vision Agent" without an image). -/
theorem model_router_mapping (m : Message) (p : String) :
    (msgHasImage m = true →
      model_router_node m p =
        .ok ("meta-llama/Llama-4-scout-17b-16e-instruct", "GROQ")) ∧
    (msgHasImage m = false → p = "Financial Analyst" →
      model_router_node m p = .ok ("llama-3.3-70b-versatile", "GROQ")) ∧
    (msgHasImage m = false → p = "Creative Writer" →
      model_router_node m p = .ok ("llama-3.1-8b-instant", "GROQ")) ∧
    (msgHasImage m = false → p = "Vision Agent" →
      model_router_node m p =
        .error "Could not determine a suitable model for the request.") := by
  refine ⟨?_, ?_, ?_, ?_⟩
  · intro hi
    rw [model_router_node, if_pos hi]
  · intro hi hp
    subst hp
    rw [model_router_node, if_neg (by simp [hi]), if_pos rfl]
  · intro hi hp
    subst hp
    rw [model_router_node, if_neg (by simp [hi]), if_neg (by decide),
      if_pos rfl]
  · intro hi hp
    subst hp
    rw [model_router_node, if_neg (by simp [hi]), if_neg (by decide),
      if_neg (by decide)]

/-- Witness for `model_router_mapping` at concrete inputs. -/
theorem model_router_mapping_wit :
    model_router_node (Message.user (.parts [.imageUrl "u"])) "Creative Writer" =
      .ok ("meta-llama/Llama-4-scout-17b-16e-instruct", "GROQ") ∧
    model_router_node (Message.user (.str "s")) "Financial Analyst" =
      .ok ("llama-3.3-70b-versatile", "GROQ") ∧
    model_router_node (Message.user (.str "s")) "Creative Writer" =
      .ok ("llama-3.1-8b-instant", "GROQ") :=
  ⟨(model_router_mapping _ _).1 (by decide),
   (model_router_mapping _ _).2.1 (by decide) rfl,
   (model_router_mapping _ _).2.2.1 (by decide) rfl⟩

/-- **C5**: the post-generation decision routes exactly as specified:
"tools" iff the latest message carries tool calls, else "agent" iff it is
a tool-result message, else the terminal "__end__". -/
theorem should_continue_spec (m : Message) :
    (msg_has_tool_calls m = true → should_continue m = "tools") ∧
    (msg_has_tool_calls m = false → isToolMsg m = true →
      should_continue m = "agent") ∧
    (msg_has_tool_calls m = false → isToolMsg m = false →
      should_continue m = "__end__") := by
  refine ⟨?_, ?_, ?_⟩
  · intro h
    rw [should_continue, if_pos h]
  · intro h1 h2
    rw [should_continue, if_neg (by simp [h1]), if_pos h2]
  · intro h1 h2
    rw [should_continue, if_neg (by simp [h1]), if_neg (by simp [h2])]

/-- Witness for `should_continue_spec` on the three concrete shapes. -/
theorem should_continue_spec_wit :
    should_continue (Message.assistant (.str "x") [⟨"tavily_search", "q"⟩])
      = "tools" ∧
    should_continue (Message.tool (.str "r")) = "agent" ∧
    should_continue (Message.assistant (.str "y") []) = "__end__" :=
  ⟨(should_continue_spec _).1 (by decide),
   (should_continue_spec _).2.1 (by decide) (by decide),
   (should_continue_spec _).2.2 (by decide) (by decide)⟩

/-- If an identifier is not in the deprecation map, iterating the rewrite
leaves it unchanged. -/
theorem rewriteIter_none {m : String} (h : depLookup m = none) :
    ∀ n, rewriteIter n m = m
  | 0 => rfl
  | n + 1 => by rw [rewriteIter, h]

/-- **C6** counterexample: the map is not flattened to one hop - the
single rewrite applied by `make_llm` to "llama3-70b-8192" yields
"llama-3.1-70b-versatile", an identifier that is itself still in
`DEPRECATED_MODEL_MAP`, hence not a fixed point of the rewrite. -/
theorem make_llm_rewrite_not_flat :
    rewriteOnce "llama3-70b-8192" = "llama-3.1-70b-versatile" ∧
    depLookup (rewriteOnce "llama3-70b-8192") =
      some "llama-3.3-70b-versatile" :=
  ⟨by decide, by decide⟩

/-- **C6** (amended): deprecated-identifier rewriting terminates with no
cycle - for every identifier, two hops of the rewrite reach a fixed
point, an identifier no longer in the map (the chain
llama3-70b-8192 to llama-3.1-70b-versatile to llama-3.3-70b-versatile
needs both hops, so the single rewrite of `make_llm` is not always a
fixed point). -/
theorem rewrite_reaches_fixed_point (m : String) :
    depLookup (rewriteIter 2 m) = none := by
  by_cases h1 : m = "llama3-8b-8192"
  · subst h1; decide
  by_cases h2 : m = "llama3-70b-8192"
  · subst h2; decide
  by_cases h3 : m = "llama-3.1-70b-versatile"
  · subst h3; decide
  have e1 : (m == "llama3-8b-8192") = false := beq_eq_false_iff_ne.mpr h1
  have e2 : (m == "llama3-70b-8192") = false := beq_eq_false_iff_ne.mpr h2
  have e3 : (m == "llama-3.1-70b-versatile") = false :=
    beq_eq_false_iff_ne.mpr h3
  have hm : depLookup m = none := by
    simp [depLookup, DEPRECATED_MODEL_MAP, List.lookup, e1, e2, e3]
  rw [rewriteIter_none hm 2]
  exact hm

/-- **C10**: in the composed graph the classification-failure branch of
the model router is unreachable: the persona is "Vision Agent" only when
the latest message carries an image part, and on the persona produced by
`persona_router_node` for the same message, `model_router_node` always
resolves a model (so its ValueError is never raised on a reachable
state). -/
theorem composed_router_safe (m : Message) :
    (persona_router_node m = "Vision Agent" → msgHasImage m = true) ∧
    ∃ mn, model_router_node m (persona_router_node m) = .ok (mn, "GROQ") := by
  constructor
  · intro hp
    by_contra hni
    rw [Bool.not_eq_true] at hni
    rw [persona_router_node_eq, if_neg (by simp [hni])] at hp
    by_cases hk : matchesKeyword (extractQueryImage (contentOf m)).1 = true
    · rw [if_pos hk] at hp
      exact absurd hp (by decide)
    · rw [if_neg hk] at hp
      exact absurd hp (by decide)
  · exact model_router_total m

/-- Witness for `composed_router_safe` at a concrete multimodal message. -/
theorem composed_router_safe_wit :
    msgHasImage (Message.user (.parts [.imageUrl "u", .text "bitcoin"])) = true ∧
    ∃ mn, model_router_node (Message.user (.parts [.imageUrl "u", .text "bitcoin"]))
      (persona_router_node (Message.user (.parts [.imageUrl "u", .text "bitcoin"])))
      = .ok (mn, "GROQ") :=
  ⟨(composed_router_safe _).1 (by decide), (composed_router_safe _).2⟩

/-- **C2** counterexample: the snippet sanitizer is not idempotent. On
"1[x]a" the bracket-removal step runs after the digit/letter spacing
steps and glues "1" and "a" together: one application yields "1a", a
second application yields "1 a". -/
theorem clean_snippet_not_idempotent :
    clean_snippet (clean_snippet "1[x]a") ≠ clean_snippet "1[x]a" := by decide

/-- **C2** (amended): on every string containing no opening bracket (so
the bracket-removal step cannot delete anything and re-join characters),
`clean_snippet` is idempotent, and its output contains no digit-letter or
letter-digit adjacency and no markdown/junk character. -/
theorem clean_snippet_idempotent_no_bracket (s : String)
    (h : '[' ∉ s.toList) :
    clean_snippet (clean_snippet s) = clean_snippet s ∧
    pairFreeB dlPair (clean_snippet s).toList = true ∧
    pairFreeB ldPair (clean_snippet s).toList = true ∧
    ∀ c ∈ (clean_snippet s).toList, junkChar c = false := by
  have h2 : ∀ c ∈ s.toList, c ≠ '[' := fun c hc hceq => h (hceq ▸ hc)
  refine ⟨?_, ?_, ?_, ?_⟩
  · exact congrArg String.mk (cleanedList_idem s.toList h2)
  · rw [pairFreeB_iff_chain']
    exact cleanedList_dlFree s.toList h2
  · rw [pairFreeB_iff_chain']
    exact cleanedList_ldFree s.toList h2
  · exact cleanedList_junkFree s.toList

/-- Witness for `clean_snippet_idempotent_no_bracket` at a concrete
bracket-free string. -/
theorem clean_snippet_idempotent_no_bracket_wit :
    clean_snippet (clean_snippet "Top 5*BTC_prices\nnow: 496USD witha24") =
      clean_snippet "Top 5*BTC_prices\nnow: 496USD witha24" ∧
    pairFreeB dlPair
      (clean_snippet "Top 5*BTC_prices\nnow: 496USD witha24").toList = true ∧
    pairFreeB ldPair
      (clean_snippet "Top 5*BTC_prices\nnow: 496USD witha24").toList = true ∧
    ∀ c ∈ (clean_snippet "Top 5*BTC_prices\nnow: 496USD witha24").toList,
      junkChar c = false :=
  clean_snippet_idempotent_no_bracket _ (by decide)

/-- **C8**: the core's result is independent of the `system_prompt` and
`allow_search` arguments: for a fixed turn list, image payload, clock,
key state and backend behaviour, two runs differing only in those two
arguments produce the same persona, capability, message sequence, counts
and returned string - the source never reads either parameter. -/
theorem core_ignores_prompt_and_search_flag (b : Backend) (tx : ToolExec)
    (groq_key : Bool) (now_str : String) (fuel : Nat) (sp1 sp2 : String)
    (messages : List String) (as1 as2 : Bool) (image_data : Option String) :
    get_response_full b tx groq_key now_str fuel sp1 messages as1 image_data =
      get_response_full b tx groq_key now_str fuel sp2 messages as2 image_data :=
  rfl

/-! ## Lemmas about the orchestration loop -/

theorem attach_image_ne_nil (human : List Message) (img : Option String)
    (h : human ≠ []) : attach_image human img ≠ [] := by
  cases img with
  | none => exact h
  | some d =>
    by_cases hd : d = ""
    · rw [attach_image, if_pos hd]
      exact h
    · rw [attach_image, if_neg hd]
      cases hl : human.getLast? with
      | none => exact h
      | some lm =>
        show human.dropLast ++ [_] ≠ []
        simp

theorem make_llm_groq (mn : String) :
    make_llm mn "GROQ" true = .ok (rewriteOnce mn) := by
  simp only [make_llm]
  rw [if_neg (by decide), if_neg (by decide)]

theorem should_continue_assistant_nil (c : MessageContent) :
    should_continue (Message.assistant c []) = "__end__" := rfl

theorem agent_step_fields (b : Backend) (gk : Bool) (ns : String)
    (st st2 : AgentState) (h : agent_step b gk ns st = some st2) :
    st2.persona = st.persona ∧
    st2.selected_model_name = st.selected_model_name ∧
    st2.selected_model_provider = st.selected_model_provider := by
  obtain ⟨msgs, per, smn, smp⟩ := st
  cases per with
  | none => simp [agent_step] at h
  | some p =>
    cases smn with
    | none => simp [agent_step] at h
    | some mn =>
      cases smp with
      | none => simp [agent_step] at h
      | some mp =>
        simp only [agent_step] at h
        cases hml : make_llm mn mp gk with
        | error e => rw [hml] at h; simp at h
        | ok model =>
          rw [hml] at h
          simp at h
          subst h
          exact ⟨rfl, rfl, rfl⟩

theorem agentLoop_fields (b : Backend) (tx : ToolExec) (gk : Bool)
    (ns : String) :
    ∀ (fuel : Nat) (st fin : AgentState) (a t : Nat),
      agentLoop b tx gk ns fuel st = some (fin, a, t) →
      fin.persona = st.persona ∧
      fin.selected_model_name = st.selected_model_name ∧
      fin.selected_model_provider = st.selected_model_provider
  | 0, st, fin, a, t, h => by simp [agentLoop] at h
  | fuel + 1, st, fin, a, t, h => by
    rw [agentLoop] at h
    cases hstep : agent_step b gk ns st with
    | none => rw [hstep] at h; simp at h
    | some st2 =>
      rw [hstep] at h
      simp at h
      obtain ⟨e1, e2, e3⟩ := agent_step_fields b gk ns st st2 hstep
      cases hlast : st2.messages.getLast? with
      | none => rw [hlast] at h; simp at h
      | some lm =>
        rw [hlast] at h
        simp at h
        by_cases h1 : should_continue lm = "tools"
        · simp only [h1, if_true] at h
          cases hrec : agentLoop b tx gk ns fuel
              { st2 with messages := st2.messages ++ tx (toolCallsOf lm) } with
          | none => rw [hrec] at h; simp at h
          | some res =>
            obtain ⟨fin2, a2, t2⟩ := res
            rw [hrec] at h
            simp at h
            obtain ⟨hf, -, -⟩ := h
            subst hf
            have hx := agentLoop_fields b tx gk ns fuel _ fin2 a2 t2 hrec
            exact ⟨hx.1.trans e1, hx.2.1.trans e2, hx.2.2.trans e3⟩
        · rw [if_neg h1] at h
          by_cases h2 : should_continue lm = "agent"
          · simp only [h2, if_true] at h
            cases hrec : agentLoop b tx gk ns fuel st2 with
            | none => rw [hrec] at h; simp at h
            | some res =>
              obtain ⟨fin2, a2, t2⟩ := res
              rw [hrec] at h
              simp at h
              obtain ⟨hf, -, -⟩ := h
              subst hf
              have hx := agentLoop_fields b tx gk ns fuel st2 fin2 a2 t2 hrec
              exact ⟨hx.1.trans e1, hx.2.1.trans e2, hx.2.2.trans e3⟩
          · rw [if_neg h2] at h
            simp at h
            obtain ⟨hf, -, -⟩ := h
            subst hf
            exact ⟨e1, e2, e3⟩

/-- **C9**: within a single invocation, `persona` is written exactly once
(by the persona router) and the selected-capability fields exactly once
(by the model router): all three are absent in the initial state built by
`get_response`, the persona step sets `persona` and changes nothing else,
the model step sets the capability fields and changes neither `persona`
nor the messages, and the generation/tool loop never changes any of the
three routing fields. -/
theorem routing_fields_set_once :
    (∀ (msgs : List String) (img : Option String),
      (init_state msgs img).persona = none ∧
      (init_state msgs img).selected_model_name = none ∧
      (init_state msgs img).selected_model_provider = none) ∧
    (∀ st st1, persona_router_step st = some st1 →
      (∃ p, st1.persona = some p) ∧
      st1.selected_model_name = st.selected_model_name ∧
      st1.selected_model_provider = st.selected_model_provider ∧
      st1.messages = st.messages) ∧
    (∀ st st2, model_router_step st = some st2 →
      (∃ mn, st2.selected_model_name = some mn) ∧
      (∃ mp, st2.selected_model_provider = some mp) ∧
      st2.persona = st.persona ∧ st2.messages = st.messages) ∧
    (∀ (b : Backend) (tx : ToolExec) (gk : Bool) (ns : String)
        (fuel : Nat) (st fin : AgentState) (a t : Nat),
      agentLoop b tx gk ns fuel st = some (fin, a, t) →
      fin.persona = st.persona ∧
      fin.selected_model_name = st.selected_model_name ∧
      fin.selected_model_provider = st.selected_model_provider) := by
  refine ⟨fun msgs img => ⟨rfl, rfl, rfl⟩, ?_, ?_, ?_⟩
  · intro st st1 h
    rw [persona_router_step] at h
    cases hl : st.messages.getLast? with
    | none => rw [hl] at h; simp at h
    | some lm =>
      rw [hl] at h
      simp at h
      subst h
      exact ⟨⟨_, rfl⟩, rfl, rfl, rfl⟩
  · intro st st2 h
    rw [model_router_step] at h
    cases hl : st.messages.getLast? with
    | none => rw [hl] at h; simp at h
    | some lm =>
      cases hp : st.persona with
      | none => rw [hl, hp] at h; simp at h
      | some p =>
        rw [hl, hp] at h
        simp at h
        cases hmr : model_router_node lm p with
        | error e => rw [hmr] at h; simp at h
        | ok c =>
          obtain ⟨mn, mp⟩ := c
          rw [hmr] at h
          simp at h
          subst h
          exact ⟨⟨mn, rfl⟩, ⟨mp, rfl⟩, rfl, rfl⟩
  · intro b tx gk ns fuel st fin a t h
    exact agentLoop_fields b tx gk ns fuel st fin a t h

/-- Witness for `routing_fields_set_once`, instantiating each conjunct on
a concrete one-turn run (a backend that answers "ok" with no tool
calls). -/
theorem routing_fields_set_once_wit :
    ((init_state ["hi"] none).persona = none ∧
      (init_state ["hi"] none).selected_model_name = none ∧
      (init_state ["hi"] none).selected_model_provider = none) ∧
    ((∃ p, (⟨[Message.user (.str "hi")], some "Creative Writer", none, none⟩
        : AgentState).persona = some p) ∧
      (⟨[Message.user (.str "hi")], some "Creative Writer", none, none⟩
        : AgentState).selected_model_name =
      (⟨[Message.user (.str "hi")], none, none, none⟩
        : AgentState).selected_model_name ∧
      (⟨[Message.user (.str "hi")], some "Creative Writer", none, none⟩
        : AgentState).selected_model_provider =
      (⟨[Message.user (.str "hi")], none, none, none⟩
        : AgentState).selected_model_provider ∧
      (⟨[Message.user (.str "hi")], some "Creative Writer", none, none⟩
        : AgentState).messages =
      (⟨[Message.user (.str "hi")], none, none, none⟩
        : AgentState).messages) ∧
    ((∃ mn, (⟨[Message.user (.str "hi")], some "Creative Writer",
        some "llama-3.1-8b-instant", some "GROQ"⟩
        : AgentState).selected_model_name = some mn) ∧
      (∃ mp, (⟨[Message.user (.str "hi")], some "Creative Writer",
        some "llama-3.1-8b-instant", some "GROQ"⟩
        : AgentState).selected_model_provider = some mp) ∧
      (⟨[Message.user (.str "hi")], some "Creative Writer",
        some "llama-3.1-8b-instant", some "GROQ"⟩ : AgentState).persona =
      (⟨[Message.user (.str "hi")], some "Creative Writer", none, none⟩
        : AgentState).persona ∧
      (⟨[Message.user (.str "hi")], some "Creative Writer",
        some "llama-3.1-8b-instant", some "GROQ"⟩ : AgentState).messages =
      (⟨[Message.user (.str "hi")], some "Creative Writer", none, none⟩
        : AgentState).messages) ∧
    ((⟨[Message.user (.str "hi"), Message.assistant (.str "ok") []],
        some "Creative Writer", some "llama-3.1-8b-instant", some "GROQ"⟩
        : AgentState).persona =
      (⟨[Message.user (.str "hi")], some "Creative Writer",
        some "llama-3.1-8b-instant", some "GROQ"⟩ : AgentState).persona ∧
      (⟨[Message.user (.str "hi"), Message.assistant (.str "ok") []],
        some "Creative Writer", some "llama-3.1-8b-instant", some "GROQ"⟩
        : AgentState).selected_model_name =
      (⟨[Message.user (.str "hi")], some "Creative Writer",
        some "llama-3.1-8b-instant", some "GROQ"⟩
        : AgentState).selected_model_name ∧
      (⟨[Message.user (.str "hi"), Message.assistant (.str "ok") []],
        some "Creative Writer", some "llama-3.1-8b-instant", some "GROQ"⟩
        : AgentState).selected_model_provider =
      (⟨[Message.user (.str "hi")], some "Creative Writer",
        some "llama-3.1-8b-instant", some "GROQ"⟩
        : AgentState).selected_model_provider) :=
  ⟨routing_fields_set_once.1 ["hi"] none,
   routing_fields_set_once.2.1
     ⟨[Message.user (.str "hi")], none, none, none⟩
     ⟨[Message.user (.str "hi")], some "Creative Writer", none, none⟩
     (by decide),
   routing_fields_set_once.2.2.1
     ⟨[Message.user (.str "hi")], some "Creative Writer", none, none⟩
     ⟨[Message.user (.str "hi")], some "Creative Writer",
       some "llama-3.1-8b-instant", some "GROQ"⟩
     (by decide),
   routing_fields_set_once.2.2.2
     (fun _ _ _ => Message.assistant (.str "ok") []) (fun _ => []) true "t" 1
     ⟨[Message.user (.str "hi")], some "Creative Writer",
       some "llama-3.1-8b-instant", some "GROQ"⟩
     ⟨[Message.user (.str "hi"), Message.assistant (.str "ok") []],
       some "Creative Writer", some "llama-3.1-8b-instant", some "GROQ"⟩
     1 0 (by decide)⟩

/-- **C7**: for every input with a nonempty turn list whose generation
backend always returns a plain assistant message carrying no tool calls,
the orchestration graph reaches the terminal state with exactly one
execution of the generation step and no tool invocation and no synthesis
re-entry (stated with the GROQ key present and at least one round of
fuel, since generation otherwise aborts fatally before answering). -/
theorem graph_terminates_one_generation (b : Backend) (tx : ToolExec)
    (now_str : String) (fuel : Nat) (sp : String) (messages : List String)
    (alw : Bool) (image_data : Option String)
    (hmsgs : messages ≠ []) (hfuel : 1 ≤ fuel)
    (hb : ∀ bound model input, ∃ c, b bound model input = Message.assistant c []) :
    ∃ r, get_response_full b tx true now_str fuel sp messages alw image_data
        = some r ∧ r.agentRuns = 1 ∧ r.toolRuns = 0 := by
  obtain ⟨f2, rfl⟩ : ∃ f2, fuel = f2 + 1 := ⟨fuel - 1, by omega⟩
  have hne : attach_image (messages.map mkHumanText) image_data ≠ [] :=
    attach_image_ne_nil _ _ (by simpa using hmsgs)
  obtain ⟨lm, hlm⟩ : ∃ lm,
      (attach_image (messages.map mkHumanText) image_data).getLast? = some lm := by
    cases hh : (attach_image (messages.map mkHumanText) image_data).getLast? with
    | none => exact absurd (List.getLast?_eq_none_iff.mp hh) hne
    | some x => exact ⟨x, rfl⟩
  obtain ⟨mn, hmr⟩ := model_router_total lm
  have h1 : persona_router_step (init_state messages image_data) =
      some ⟨attach_image (messages.map mkHumanText) image_data,
        some (persona_router_node lm), none, none⟩ := by
    simp only [persona_router_step, init_state]
    rw [hlm]
    rfl
  have h2 : model_router_step
      ⟨attach_image (messages.map mkHumanText) image_data,
        some (persona_router_node lm), none, none⟩ =
      some ⟨attach_image (messages.map mkHumanText) image_data,
        some (persona_router_node lm), some mn, some "GROQ"⟩ := by
    simp only [model_router_step]
    rw [hlm]
    simp [hmr]
  obtain ⟨c, hc⟩ := hb (persona_router_node lm == "Financial Analyst")
    (rewriteOnce mn)
    (if persona_router_node lm = "Vision Agent"
      then attach_image (messages.map mkHumanText) image_data
      else Message.system
        (.str (system_prompt_for (persona_router_node lm) now_str))
        :: attach_image (messages.map mkHumanText) image_data)
  have hstep : agent_step b true now_str
      ⟨attach_image (messages.map mkHumanText) image_data,
        some (persona_router_node lm), some mn, some "GROQ"⟩ =
      some ⟨attach_image (messages.map mkHumanText) image_data
          ++ [Message.assistant c []],
        some (persona_router_node lm), some mn, some "GROQ"⟩ := by
    simp only [agent_step]
    rw [make_llm_groq]
    simp [hc]
  have hloop : agentLoop b tx true now_str (f2 + 1)
      ⟨attach_image (messages.map mkHumanText) image_data,
        some (persona_router_node lm), some mn, some "GROQ"⟩ =
      some (⟨attach_image (messages.map mkHumanText) image_data
          ++ [Message.assistant c []],
        some (persona_router_node lm), some mn, some "GROQ"⟩, 1, 0) := by
    rw [agentLoop, hstep]
    simp [List.getLast?_concat, should_continue_assistant_nil,
      show ¬("__end__" : String) = "tools" from by decide,
      show ¬("__end__" : String) = "agent" from by decide]
  refine ⟨⟨persona_router_node lm, mn, "GROQ",
    attach_image (messages.map mkHumanText) image_data
      ++ [Message.assistant c []],
    contentToString c, 1, 0⟩, ?_, rfl, rfl⟩
  simp only [get_response_full]
  simp [h1, h2, hloop, List.getLast?_concat, contentOf]

/-- Witness for `graph_terminates_one_generation` at a concrete one-turn
input and a backend that always answers "ok". -/
theorem graph_terminates_one_generation_wit :
    ∃ r, get_response_full (fun _ _ _ => Message.assistant (.str "ok") [])
        (fun _ => []) true "12:00" 1 "sys" ["hello"] false none = some r ∧
      r.agentRuns = 1 ∧ r.toolRuns = 0 :=
  graph_terminates_one_generation _ _ _ _ _ _ _ _ (by decide) (by decide)
    (fun _ _ _ => ⟨.str "ok", rfl⟩)

end Orchestration
